import Mathlib

/-!
Verification development for the njshell command runner.

The repository ships two variants of the same module:
the v2 source (function names exec and execLocal, with execution options,
a pre-subprocess filename check and an unsupported-type rejection), embedded
here in namespace Njshell.V2, and the older src/main.js variant (function
names exec and exel), embedded in namespace Njshell.V1.

The platform collaborators (the child-process facility, process.cwd, the
project-root resolver, process.platform) are modelled as explicit
parameters; the posix path helpers and utf-8 decoding used by the code are
modelled executably below.
-/

namespace Njshell

/-- Whitespace recognised by the JavaScript String trim method
(ASCII whitespace plus the common Unicode space characters). -/
def isWsChar (c : Char) : Bool :=
  c == ' ' || c == '\t' || c == '\n' || c == '\r' ||
  c == '\x0b' || c == '\x0c' || c == '\u00A0' || c == '\uFEFF'

/-- Model of the JavaScript String trim method: strip leading and
trailing whitespace characters. -/
def jsTrim (s : String) : String :=
  ⟨((s.data.dropWhile isWsChar).reverse.dropWhile isWsChar).reverse⟩

/-- The Unicode replacement character emitted for malformed utf-8. -/
def replacementChar : Char := '\uFFFD'

/-- Is the byte a utf-8 continuation byte (10xxxxxx)? -/
def isCont (n : Nat) : Bool := 128 ≤ n && n ≤ 191

/-- Build a character from a decoded code point, replacing surrogates and
out-of-range values as a decoder must. -/
def mkCodepoint (n : Nat) : Char :=
  if 55296 ≤ n && n ≤ 57343 then replacementChar
  else if 1114111 < n then replacementChar
  else Char.ofNat n

/-- Fuel-driven utf-8 decoding loop; the fuel is the byte count, and each
step consumes at least one byte, so the fuel never runs out. -/
def utf8DecodeAux : Nat → List Nat → List Char
  | 0, _ => []
  | _ + 1, [] => []
  | fuel + 1, b :: rest =>
    if b < 128 then
      Char.ofNat b :: utf8DecodeAux fuel rest
    else if 194 ≤ b && b ≤ 223 then
      match rest with
      | c1 :: rest1 =>
        if isCont c1 then
          mkCodepoint ((b - 192) * 64 + (c1 - 128)) :: utf8DecodeAux fuel rest1
        else replacementChar :: utf8DecodeAux fuel rest
      | [] => [replacementChar]
    else if 224 ≤ b && b ≤ 239 then
      match rest with
      | c1 :: c2 :: rest2 =>
        if isCont c1 && isCont c2 then
          mkCodepoint ((b - 224) * 4096 + (c1 - 128) * 64 + (c2 - 128)) ::
            utf8DecodeAux fuel rest2
        else replacementChar :: utf8DecodeAux fuel rest
      | _ => [replacementChar]
    else if 240 ≤ b && b ≤ 244 then
      match rest with
      | c1 :: c2 :: c3 :: rest3 =>
        if isCont c1 && isCont c2 && isCont c3 then
          mkCodepoint ((b - 240) * 262144 + (c1 - 128) * 4096 +
            (c2 - 128) * 64 + (c3 - 128)) :: utf8DecodeAux fuel rest3
        else replacementChar :: utf8DecodeAux fuel rest
      | _ => [replacementChar]
    else replacementChar :: utf8DecodeAux fuel rest

/-- Model of Buffer toString with the utf8 encoding: decode a byte list
into text. -/
def utf8Decode (bytes : List Nat) : String :=
  ⟨utf8DecodeAux bytes.length bytes⟩

/-- Does the character list begin with a path separator? -/
def headIsSlash (l : List Char) : Bool := l.head? == some '/'

/-- Model of the posix path.isAbsolute check: the first character is a
separator. -/
def isAbsolute (s : String) : Bool := headIsSlash s.data

/-- Split a character list on separators; the accumulator holds the
current segment reversed. -/
def splitSlashAux : List Char → List Char → List (List Char)
  | acc, [] => [acc.reverse]
  | acc, '/' :: rest => acc.reverse :: splitSlashAux [] rest
  | acc, c :: rest => splitSlashAux (c :: acc) rest

/-- Split into path components, discarding empty and single-dot
components as path normalization does. -/
def splitParts (cs : List Char) : List (List Char) :=
  (splitSlashAux [] cs).filter (fun p => !(p == []) && !(p == ['.']))

/-- One step of the normalization fold: a dot-dot component pops the last
kept component (and vanishes at the root of an absolute path). -/
def normStep (abs : Bool) (acc : List (List Char)) (c : List Char) :
    List (List Char) :=
  if c = ['.', '.'] then
    match acc with
    | [] => if abs then [] else [c]
    | a :: rest => if a = ['.', '.'] then c :: acc else rest
  else c :: acc

/-- Normalize a component list, resolving dot-dot components. -/
def normComps (abs : Bool) (cs : List (List Char)) : List (List Char) :=
  (cs.foldl (normStep abs) []).reverse

/-- Interleave components with separators. -/
def joinSlash : List (List Char) → List Char
  | [] => []
  | [p] => p
  | p :: rest => p ++ '/' :: joinSlash rest

/-- Concatenate two path strings with a separator, as path.join does
before normalizing. -/
def rawJoin (a b : List Char) : List Char :=
  if a = [] then b else if b = [] then a else a ++ '/' :: b

/-- Normalize a joined character list into a path string, keeping the
leading separator of an absolute path. -/
def normalizeJoined (j : List Char) : String :=
  if headIsSlash j then ⟨'/' :: joinSlash (normComps true (splitParts j))⟩
  else if joinSlash (normComps false (splitParts j)) = [] then "."
  else ⟨joinSlash (normComps false (splitParts j))⟩

/-- Model of the posix path.join on two arguments: concatenate with a
separator and normalize. -/
def pathJoin (a b : String) : String :=
  normalizeJoined (rawJoin a.data b.data)

/-- Model of the posix path.dirname: drop the last component. -/
def pathDirname (s : String) : String :=
  let r1 := s.data.reverse.dropWhile (fun c => c == '/')
  let r2 := (r1.dropWhile (fun c => c != '/')).dropWhile (fun c => c == '/')
  if r2 = [] then (if headIsSlash s.data then "/" else ".") else ⟨r2.reverse⟩

/-- Model of the posix path.basename: the last component. -/
def pathBasename (s : String) : String :=
  ⟨((s.data.reverse.dropWhile (fun c => c == '/')).takeWhile
    (fun c => c != '/')).reverse⟩

namespace V2

/-- Caller-supplied execution options of the v2 exec; a field with value
none is absent from the options object the caller passed. -/
structure ExecOptions where
  cwd : Option String
  encoding : Option String
  timeout : Option Int
  maxBuffer : Option Int
  signal : Option Nat
deriving DecidableEq, Repr

/-- The options object actually handed to the child-process facility,
after the v2 exec merges its defaults with the caller's options; an
encoding of none is the null encoding, i.e. binary capture. -/
structure EffOptions where
  encoding : Option String
  timeout : Int
  maxBuffer : Int
  cwd : Option String
  signal : Option Nat
deriving DecidableEq, Repr

/-- The merge performed by the v2 exec: spread the caller's options over
the defaults encoding null, timeout 0, maxBuffer 10 MiB, so any
caller-supplied field (including encoding) wins over the default. -/
def effectiveOptions (o : ExecOptions) : EffOptions :=
  { encoding := o.encoding
    timeout := o.timeout.getD 0
    maxBuffer := o.maxBuffer.getD (10 * 1024 * 1024)
    cwd := o.cwd
    signal := o.signal }

/-- The error object the child-process facility passes to the callback on
failure (non-zero exit, signal, timeout, abort, or output over the
maxBuffer bound). -/
structure SubprocErr where
  code : Int
  message : String
deriving DecidableEq, Repr

/-- What the child-process facility hands to the callback: an optional
error plus the captured stdout and stderr bytes. -/
structure SubprocOutcome where
  err : Option SubprocErr
  stdout : List Nat
  stderr : List Nat
deriving DecidableEq, Repr

/-- The platform collaborators of the v2 exec: the child-process facility
(a function of the command and the merged options) and process.cwd. -/
structure World where
  run : String → EffOptions → SubprocOutcome
  cwd : String

/-- The vinyl file object built in the vinyl branch. -/
structure VinylFile where
  cwd : String
  base : String
  path : String
  contents : List Nat
deriving DecidableEq, Repr

/-- The value the v2 exec resolves with: a trimmed string, a byte buffer,
a one-shot readable stream of byte chunks, or a one-shot object stream of
vinyl files. -/
inductive Output where
  | str (s : String)
  | buffer (bytes : List Nat)
  | stream (chunks : List (List Nat))
  | vinylStream (files : List VinylFile)
deriving DecidableEq, Repr

/-- The rejection values of the v2 exec, each carrying the Error message
(and, for an execution failure, the error object with the stdout and
stderr texts the code attaches to it). -/
inductive ExecError where
  | missingFilename (message : String)
  | executionFailed (e : SubprocErr) (stdoutText stderrText : String)
  | unsupportedType (message : String)
deriving DecidableEq, Repr

/-- The observable effect of one v2 exec call: how the promise settles,
which child-process invocations happened (a spy on the facility), and
which console.warn diagnostics were emitted. -/
structure ExecResult where
  result : Except ExecError Output
  calls : List (String × EffOptions)
  warnings : List String

/-- Shallow embedding of the v2 exec: validate the vinyl filename before
any subprocess, merge default options, invoke the child-process facility,
reject on its error with stdout and stderr texts attached, warn on
non-empty stderr text, and convert stdout per the requested type. -/
def exec (cmd type : String) (filename : Option String)
    (options : ExecOptions) (w : World) : ExecResult :=
  if type = "vinyl" ∧ (filename = none ∨ filename = some "") then
    { result := Except.error (ExecError.missingFilename
        "filename is required when type is \"vinyl\"")
      calls := []
      warnings := [] }
  else
    let eff := effectiveOptions options
    let o := w.run cmd eff
    match o.err with
    | some e =>
      { result := Except.error (ExecError.executionFailed e
          (utf8Decode o.stdout) (utf8Decode o.stderr))
        calls := [(cmd, eff)]
        warnings := [] }
    | none =>
      let stderrText := jsTrim (utf8Decode o.stderr)
      let warnings : List String :=
        if o.stderr = [] then []
        else if stderrText = "" then []
        else ["[njshell stderr] " ++ stderrText]
      let res : Except ExecError Output :=
        if type = "string" then
          Except.ok (Output.str (jsTrim (utf8Decode o.stdout)))
        else if type = "buffer" then
          Except.ok (Output.buffer o.stdout)
        else if type = "stream" then
          Except.ok (Output.stream [o.stdout])
        else if type = "vinyl" then
          match filename with
          | some f =>
            let vinylPath := if isAbsolute f then f else pathJoin w.cwd f
            Except.ok (Output.vinylStream
              [{ cwd := w.cwd
                 base := pathDirname vinylPath
                 path := vinylPath
                 contents := o.stdout }])
          | none => Except.ok (Output.vinylStream [])
        else
          Except.error (ExecError.unsupportedType
            ("Unsupported output type: \"" ++ type ++
              "\". Use: string, buffer, stream, or vinyl."))
      { result := res
        calls := [(cmd, eff)]
        warnings := warnings }

/-- The local binary path built by execLocal: project root joined with
node_modules, .bin and the binary name (the root comes from the external
project-root resolver). -/
def localBinPath (rootDir binName : String) : String :=
  pathJoin (pathJoin (pathJoin rootDir "node_modules") ".bin") binName

/-- The command string execLocal hands to exec: the local binary path,
with a .cmd suffix appended and the whole path quoted on Windows. -/
def localBinCommand (rootDir : String) (isWindows : Bool)
    (binName : String) : String :=
  if isWindows then "\"" ++ localBinPath rootDir binName ++ ".cmd\""
  else localBinPath rootDir binName

/-- Shallow embedding of the v2 execLocal: resolve the binary inside the
project's node_modules/.bin and delegate to exec with everything else
unchanged. -/
def execLocal (binName type : String) (filename : Option String)
    (options : ExecOptions) (rootDir : String) (isWindows : Bool)
    (w : World) : ExecResult :=
  exec (localBinCommand rootDir isWindows binName) type filename options w

end V2

namespace V1

/-- The rejection value of the src/main.js exec: either the error object
from the child-process facility itself, or the plain string passed to
reject when only the filename is missing. -/
inductive Rejection where
  | err (e : V2.SubprocErr)
  | message (s : String)
deriving DecidableEq, Repr

/-- What the src/main.js callback receives; with no options object the
child-process facility decodes stdout and stderr as utf8 strings. -/
structure Outcome where
  err : Option V2.SubprocErr
  stdout : String
  stderr : String
deriving DecidableEq, Repr

/-- Platform collaborators of the src/main.js exec: the child-process
facility (called with the command only) and process.cwd. -/
structure World where
  run : String → Outcome
  cwd : String

/-- The value the src/main.js exec resolves with; buffer, stream and
vinyl carry the decoded stdout string and the effective encoding the
code would hand to Buffer.from, and raw is the default branch that
resolves with stdout untouched. -/
inductive Output where
  | str (s : String)
  | buffer (stdout encoding : String)
  | stream (stdout encoding : String)
  | vinylStream (path stdout encoding : String)
  | raw (stdout : String)
deriving DecidableEq, Repr

/-- The effective encoding of the src/main.js exec: the JavaScript
expression encoding or utf8, which also replaces an empty string. -/
def effEncoding (encoding : Option String) : String :=
  match encoding with
  | none => "utf8"
  | some s => if s = "" then "utf8" else s

/-- Shallow embedding of the src/main.js exec.  The callback rejects with
err or the string no file name when err is set or the type is vinyl with
no filename, so a subprocess error takes precedence; otherwise it
converts stdout by type, resolving the default branch with stdout as is.
The vinyl branch resolves path.basename of the filename against the
current working directory.  The unconditional console.log of stderr is
not part of the settled value and is omitted here. -/
def exec (cmd type : String) (filename encoding : Option String)
    (w : World) : Except Rejection Output :=
  let o := w.run cmd
  match o.err with
  | some e => Except.error (Rejection.err e)
  | none =>
    if type = "vinyl" ∧ (filename = none ∨ filename = some "") then
      Except.error (Rejection.message "no file name")
    else
      let enc := effEncoding encoding
      if type = "string" then Except.ok (Output.str (jsTrim o.stdout))
      else if type = "buffer" then Except.ok (Output.buffer o.stdout enc)
      else if type = "stream" then Except.ok (Output.stream o.stdout enc)
      else if type = "vinyl" then
        match filename with
        | some f =>
          Except.ok (Output.vinylStream
            (pathJoin w.cwd (pathBasename f)) o.stdout enc)
        | none => Except.ok (Output.raw o.stdout)
      else Except.ok (Output.raw o.stdout)

/-- Shallow embedding of the src/main.js exel: prepend the project root
and the local executable directory to the command and delegate to exec. -/
def exel (cmd type : String) (filename encoding : Option String)
    (rootDir : String) (w : World) : Except Rejection Output :=
  exec (rootDir ++ "/node_modules/.bin/" ++ cmd) type filename encoding w

end V1

/-- Empty caller options: the caller passed no options object fields. -/
def noOpts : V2.ExecOptions :=
  { cwd := none, encoding := none, timeout := none,
    maxBuffer := none, signal := none }

/-- A v2 world whose subprocess succeeds with the given stdout and stderr
bytes, with the working directory fixed to /work. -/
def okWorld (stdoutB stderrB : List Nat) : V2.World :=
  { run := fun _ _ => { err := none, stdout := stdoutB, stderr := stderrB }
    cwd := "/work" }

/-- A v2 world whose subprocess fails with the given error and captured
bytes. -/
def failWorld (e : V2.SubprocErr) (stdoutB stderrB : List Nat) : V2.World :=
  { run := fun _ _ => { err := some e, stdout := stdoutB, stderr := stderrB }
    cwd := "/work" }

/-- A sample subprocess error. -/
def sampleErr : V2.SubprocErr := { code := 1, message := "Command failed" }

/-- A src/main.js world whose subprocess succeeds with the given decoded
stdout and stderr strings. -/
def okWorldV1 (stdoutS stderrS : String) : V1.World :=
  { run := fun _ => { err := none, stdout := stdoutS, stderr := stderrS }
    cwd := "/work" }

/-- A src/main.js world whose subprocess fails with the given error. -/
def failWorldV1 (e : V2.SubprocErr) : V1.World :=
  { run := fun _ => { err := some e, stdout := "", stderr := "" }
    cwd := "/work" }

/-- Caller options that override the encoding, as a caller may. -/
def optsUtf8 : V2.ExecOptions :=
  { cwd := none, encoding := some "utf8", timeout := none,
    maxBuffer := none, signal := none }

/-- Caller options setting every passthrough field to a concrete value. -/
def optsFull : V2.ExecOptions :=
  { cwd := some "/tmp", encoding := none, timeout := some 5000,
    maxBuffer := some 1024, signal := some 7 }

/-- A list of characters whose head is a separator is a separator cons. -/
theorem slash_head_of_headIsSlash {a : List Char} (h : headIsSlash a = true) :
    ∃ t, a = '/' :: t := by
  cases a with
  | nil => simp [headIsSlash] at h
  | cons c t =>
    refine ⟨t, ?_⟩
    have hc : c = '/' := by simpa [headIsSlash] using h
    rw [hc]

/-- Joining onto a separator-headed list keeps the separator head. -/
theorem headIsSlash_rawJoin (a b : List Char) (h : headIsSlash a = true) :
    headIsSlash (rawJoin a b) = true := by
  obtain ⟨t, rfl⟩ := slash_head_of_headIsSlash h
  unfold rawJoin
  by_cases hb : b = []
  · simp [hb, headIsSlash]
  · simp [hb, headIsSlash]

/-- Normalizing a separator-headed character list yields an absolute
path string. -/
theorem isAbsolute_normalizeJoined (j : List Char)
    (h : headIsSlash j = true) : isAbsolute (normalizeJoined j) = true := by
  unfold normalizeJoined
  rw [if_pos h]
  rfl

/-- Joining any path onto an absolute path yields an absolute path. -/
theorem isAbsolute_pathJoin (a b : String) (h : isAbsolute a = true) :
    isAbsolute (pathJoin a b) = true :=
  isAbsolute_normalizeJoined _ (headIsSlash_rawJoin _ _ h)

/-- Claim C1: a vinyl request with no filename (absent or empty) rejects
with the missing-filename error, and the child-process facility is never
invoked: the calls spy stays empty. -/
theorem exec_vinyl_missingFilename (cmd : String) (opts : V2.ExecOptions)
    (w : V2.World) :
    (V2.exec cmd "vinyl" none opts w).result
      = Except.error (V2.ExecError.missingFilename
          "filename is required when type is \"vinyl\"") ∧
    (V2.exec cmd "vinyl" none opts w).calls = [] ∧
    (V2.exec cmd "vinyl" (some "") opts w).result
      = Except.error (V2.ExecError.missingFilename
          "filename is required when type is \"vinyl\"") ∧
    (V2.exec cmd "vinyl" (some "") opts w).calls = [] :=
  ⟨rfl, rfl, rfl, rfl⟩

/-- Claim C10: in the src/main.js variant, a subprocess error takes
precedence over the missing vinyl filename, and when only the filename
is missing the rejection value is the plain string no file name. -/
theorem execV1_reject_precedence :
    (∀ (cmd : String) (encoding : Option String) (w : V1.World)
        (e : V2.SubprocErr),
      (w.run cmd).err = some e →
        V1.exec cmd "vinyl" none encoding w
          = Except.error (V1.Rejection.err e)) ∧
    (∀ (cmd : String) (encoding : Option String) (w : V1.World),
      (w.run cmd).err = none →
        V1.exec cmd "vinyl" none encoding w
          = Except.error (V1.Rejection.message "no file name")) := by
  constructor
  · intro cmd enc w e he
    simp only [V1.exec]
    rw [he]
  · intro cmd enc w he
    simp only [V1.exec]
    rw [he]
    simp

/-- Witness for claim C10 at concrete worlds: with a failing subprocess
the rejection is the error object, with a succeeding one it is the plain
string. -/
theorem execV1_reject_precedence_witness :
    V1.exec "x" "vinyl" none none (failWorldV1 sampleErr)
      = Except.error (V1.Rejection.err sampleErr) ∧
    V1.exec "x" "vinyl" none none (okWorldV1 "" "")
      = Except.error (V1.Rejection.message "no file name") :=
  ⟨execV1_reject_precedence.1 "x" none (failWorldV1 sampleErr) sampleErr rfl,
   execV1_reject_precedence.2 "x" none (okWorldV1 "" "") rfl⟩

/-- Claim C3: for a type outside the four supported kinds and a
successful subprocess, exec rejects with an error whose message names the
offending type and lists the valid kinds, and never resolves. -/
theorem exec_unsupported_type (cmd type : String) (filename : Option String)
    (opts : V2.ExecOptions) (w : V2.World)
    (h1 : type ≠ "string") (h2 : type ≠ "buffer")
    (h3 : type ≠ "stream") (h4 : type ≠ "vinyl")
    (hok : (w.run cmd (V2.effectiveOptions opts)).err = none) :
    (V2.exec cmd type filename opts w).result
      = Except.error (V2.ExecError.unsupportedType
          ("Unsupported output type: \"" ++ type ++
            "\". Use: string, buffer, stream, or vinyl.")) := by
  have hnv : ¬(type = "vinyl" ∧ (filename = none ∨ filename = some "")) :=
    fun hc => h4 hc.1
  simp only [V2.exec, if_neg hnv]
  rw [hok]
  simp [h1, h2, h3, h4]

/-- Witness for claim C3: requesting the xml kind on a successful run
rejects with the message naming xml and the valid kinds. -/
theorem exec_unsupported_type_witness :
    (V2.exec "c" "xml" none noOpts (okWorld [111, 107] [])).result
      = Except.error (V2.ExecError.unsupportedType
          "Unsupported output type: \"xml\". Use: string, buffer, stream, or vinyl.") := by
  have h := exec_unsupported_type "c" "xml" none noOpts (okWorld [111, 107] [])
    (by decide) (by decide) (by decide) (by decide) rfl
  exact h.trans rfl

/-- Claim C5: whenever the child-process facility reports a failure, exec
rejects with the error, to which the captured stdout and stderr are
attached decoded as utf8 text, and no conversion is attempted: the
rejection is the same for every requested type. -/
theorem exec_failure_attaches_output (cmd type : String)
    (filename : Option String) (opts : V2.ExecOptions) (w : V2.World)
    (e : V2.SubprocErr)
    (hnv : ¬(type = "vinyl" ∧ (filename = none ∨ filename = some "")))
    (herr : (w.run cmd (V2.effectiveOptions opts)).err = some e) :
    (V2.exec cmd type filename opts w).result
      = Except.error (V2.ExecError.executionFailed e
          (utf8Decode (w.run cmd (V2.effectiveOptions opts)).stdout)
          (utf8Decode (w.run cmd (V2.effectiveOptions opts)).stderr)) := by
  simp only [V2.exec, if_neg hnv]
  rw [herr]

/-- Witness for claim C5: a failing command with non-empty stdout and
stderr rejects with both texts attached to the error. -/
theorem exec_failure_attaches_output_witness :
    (V2.exec "c" "string" none noOpts
        (failWorld sampleErr [111, 117, 116] [98, 97, 100])).result
      = Except.error (V2.ExecError.executionFailed sampleErr "out" "bad") ∧
    ([111, 117, 116] : List Nat) ≠ [] := by
  have h := exec_failure_attaches_output "c" "string" none noOpts
    (failWorld sampleErr [111, 117, 116] [98, 97, 100]) sampleErr
    (by decide) rfl
  exact ⟨h.trans rfl, by decide⟩

/-- Claim C6: with the string type and a successful subprocess, the
resolved value is the captured stdout decoded as utf8 text with leading
and trailing whitespace stripped. -/
theorem exec_string_trims (cmd : String) (filename : Option String)
    (opts : V2.ExecOptions) (w : V2.World)
    (hok : (w.run cmd (V2.effectiveOptions opts)).err = none) :
    (V2.exec cmd "string" filename opts w).result
      = Except.ok (V2.Output.str
          (jsTrim (utf8Decode (w.run cmd (V2.effectiveOptions opts)).stdout))) := by
  have hnv : ¬("string" = "vinyl" ∧ (filename = none ∨ filename = some "")) :=
    fun hc => absurd hc.1 (by decide)
  simp only [V2.exec, if_neg hnv]
  rw [hok]
  simp

/-- Witness for claim C6: stdout of two spaces, hi, a space and a newline
resolves to the trimmed string hi. -/
theorem exec_string_trims_witness :
    (V2.exec "c" "string" none noOpts
        (okWorld [32, 32, 104, 105, 32, 10] [])).result
      = Except.ok (V2.Output.str "hi") := by
  have h := exec_string_trims "c" none noOpts
    (okWorld [32, 32, 104, 105, 32, 10] []) rfl
  exact h.trans rfl

/-- Claim C4: with the vinyl type and a filename, the produced vinyl
file's path is the filename itself when absolute and otherwise the
filename joined against the current working directory, the path is
absolute whenever the working directory is, and the contents are the raw
captured stdout bytes. -/
theorem exec_vinyl_path_resolution (cmd fn : String)
    (opts : V2.ExecOptions) (w : V2.World)
    (hfn : fn ≠ "")
    (hok : (w.run cmd (V2.effectiveOptions opts)).err = none)
    (hcwd : isAbsolute w.cwd = true) :
    (V2.exec cmd "vinyl" (some fn) opts w).result
      = Except.ok (V2.Output.vinylStream
          [{ cwd := w.cwd
             base := pathDirname (if isAbsolute fn then fn else pathJoin w.cwd fn)
             path := if isAbsolute fn then fn else pathJoin w.cwd fn
             contents := (w.run cmd (V2.effectiveOptions opts)).stdout }]) ∧
    isAbsolute (if isAbsolute fn then fn else pathJoin w.cwd fn) = true := by
  constructor
  · have hnv : ¬("vinyl" = "vinyl" ∧ (some fn = none ∨ some fn = some "")) := by
      intro hc
      rcases hc.2 with h | h
      · exact Option.noConfusion h
      · exact hfn (Option.some.inj h)
    simp only [V2.exec, if_neg hnv]
    rw [hok]
    simp [hfn]
  · by_cases habs : isAbsolute fn = true
    · rw [if_pos habs]
      exact habs
    · rw [if_neg habs]
      exact isAbsolute_pathJoin w.cwd fn hcwd

/-- Witness for claim C4: a relative filename is joined against the
working directory /work into an absolute path and the stdout bytes are
the contents. -/
theorem exec_vinyl_path_resolution_witness :
    (V2.exec "c" "vinyl" (some "out.txt") noOpts
        (okWorld [111, 107] [])).result
      = Except.ok (V2.Output.vinylStream
          [{ cwd := "/work", base := "/work", path := "/work/out.txt",
             contents := [111, 107] }]) ∧
    isAbsolute "/work/out.txt" = true := by
  have h := exec_vinyl_path_resolution "c" "out.txt" noOpts
    (okWorld [111, 107] []) (by decide) rfl rfl
  exact ⟨h.1.trans rfl, by decide⟩

/-- Claim C7: whenever the vinyl precondition does not reject early, the
child-process facility is invoked exactly once with the caller's command
and the merged options, in which the working directory and the signal
pass through verbatim and the timeout and maxBuffer fields default to 0
and 10485760 when absent. -/
theorem exec_options_passthrough (cmd type : String)
    (filename : Option String) (opts : V2.ExecOptions) (w : V2.World)
    (hnv : ¬(type = "vinyl" ∧ (filename = none ∨ filename = some ""))) :
    (V2.exec cmd type filename opts w).calls
      = [(cmd, V2.effectiveOptions opts)] ∧
    (V2.effectiveOptions opts).cwd = opts.cwd ∧
    (V2.effectiveOptions opts).timeout = opts.timeout.getD 0 ∧
    (V2.effectiveOptions opts).maxBuffer = opts.maxBuffer.getD 10485760 ∧
    (V2.effectiveOptions opts).signal = opts.signal := by
  refine ⟨?_, rfl, rfl, rfl, rfl⟩
  simp only [V2.exec, if_neg hnv]
  split <;> rfl

/-- Witness for claim C7: concrete options with every field set are
handed to the subprocess facility unchanged, and absent fields take the
defaults. -/
theorem exec_options_passthrough_witness :
    (V2.exec "c" "string" none optsFull (okWorld [] [])).calls
      = [("c", { encoding := none, timeout := 5000, maxBuffer := 1024,
                 cwd := some "/tmp", signal := some 7 })] ∧
    (V2.exec "c" "string" none noOpts (okWorld [] [])).calls
      = [("c", { encoding := none, timeout := 0, maxBuffer := 10485760,
                 cwd := none, signal := none })] := by
  have h1 := exec_options_passthrough "c" "string" none optsFull
    (okWorld [] []) (fun hc => absurd hc.1 (by decide))
  have h2 := exec_options_passthrough "c" "string" none noOpts
    (okWorld [] []) (fun hc => absurd hc.1 (by decide))
  exact ⟨h1.1.trans rfl, h2.1.trans rfl⟩

/-- Claim C9: on a successful run the resolved value never depends on
stderr (two worlds agreeing on everything but stderr resolve to the same
value), and non-empty stderr text surfaces only on the warning channel,
as the bracketed njshell stderr notice. -/
theorem exec_stderr_nonfatal (cmd type : String) (filename : Option String)
    (opts : V2.ExecOptions) (w w' : V2.World)
    (hnv : ¬(type = "vinyl" ∧ (filename = none ∨ filename = some "")))
    (hok : (w.run cmd (V2.effectiveOptions opts)).err = none)
    (hok' : (w'.run cmd (V2.effectiveOptions opts)).err = none)
    (hout : (w.run cmd (V2.effectiveOptions opts)).stdout
      = (w'.run cmd (V2.effectiveOptions opts)).stdout)
    (hcwd : w.cwd = w'.cwd) :
    (V2.exec cmd type filename opts w).result
      = (V2.exec cmd type filename opts w').result ∧
    (V2.exec cmd type filename opts w).warnings
      = (if (w.run cmd (V2.effectiveOptions opts)).stderr = [] then []
         else if jsTrim (utf8Decode (w.run cmd (V2.effectiveOptions opts)).stderr) = ""
           then []
         else ["[njshell stderr] "
           ++ jsTrim (utf8Decode (w.run cmd (V2.effectiveOptions opts)).stderr)]) := by
  constructor
  · simp only [V2.exec, if_neg hnv]
    rw [hok, hok']
    simp [hout, hcwd]
  · simp only [V2.exec, if_neg hnv]
    rw [hok]

/-- Witness for claim C9: with stdout ok, a run with stderr wow resolves
to the same value as a run with empty stderr and emits exactly the
bracketed warning. -/
theorem exec_stderr_nonfatal_witness :
    (V2.exec "c" "string" none noOpts
        (okWorld [111, 107] [119, 111, 119])).result
      = (V2.exec "c" "string" none noOpts (okWorld [111, 107] [])).result ∧
    (V2.exec "c" "string" none noOpts
        (okWorld [111, 107] [119, 111, 119])).warnings
      = ["[njshell stderr] wow"] := by
  have h := exec_stderr_nonfatal "c" "string" none noOpts
    (okWorld [111, 107] [119, 111, 119]) (okWorld [111, 107] [])
    (fun hc => absurd hc.1 (by decide)) rfl rfl rfl rfl
  exact ⟨h.1, h.2.trans rfl⟩

/-- Claim C2, as the code violates it: a caller-supplied encoding option
overrides the internal binary-capture default, so this exec call invokes
the subprocess facility with a utf8 text capture, not a binary one. -/
theorem exec_encoding_override_reaches_subprocess :
    ¬ (∀ p ∈ (V2.exec "x" "string" none optsUtf8 (okWorld [] [])).calls,
        p.2.encoding = none) := by
  decide

/-- Claim C2 as amended: when the caller supplies no encoding option,
every subprocess invocation uses the binary (null) capture encoding, and
the buffer kind resolves to exactly the raw captured stdout bytes. -/
theorem exec_binary_capture_default (cmd type : String)
    (filename : Option String) (opts : V2.ExecOptions) (w : V2.World)
    (henc : opts.encoding = none)
    (hok : (w.run cmd (V2.effectiveOptions opts)).err = none) :
    (∀ p ∈ (V2.exec cmd type filename opts w).calls, p.2.encoding = none) ∧
    (V2.exec cmd "buffer" filename opts w).result
      = Except.ok (V2.Output.buffer
          (w.run cmd (V2.effectiveOptions opts)).stdout) := by
  constructor
  · intro p hp
    by_cases hc : (type = "vinyl" ∧ (filename = none ∨ filename = some ""))
    · simp only [V2.exec, if_pos hc] at hp
      simp at hp
    · simp only [V2.exec, if_neg hc] at hp
      have hpc : p = (cmd, V2.effectiveOptions opts) := by
        rcases herr : (w.run cmd (V2.effectiveOptions opts)).err with _ | e <;>
          (rw [herr] at hp; simpa using hp)
      rw [hpc]
      exact henc
  · have hnv : ¬("buffer" = "vinyl" ∧ (filename = none ∨ filename = some "")) :=
      fun hc => absurd hc.1 (by decide)
    simp only [V2.exec, if_neg hnv]
    rw [hok]
    simp

/-- Witness for the amended claim C2: with no caller encoding, the one
recorded invocation carries the null capture encoding and the buffer
result is the raw stdout bytes six f six b. -/
theorem exec_binary_capture_default_witness :
    (∀ p ∈ (V2.exec "c" "buffer" none noOpts (okWorld [111, 107] [])).calls,
      p.2.encoding = none) ∧
    (V2.exec "c" "buffer" none noOpts (okWorld [111, 107] [])).result
      = Except.ok (V2.Output.buffer [111, 107]) := by
  have h := exec_binary_capture_default "c" "buffer" none noOpts
    (okWorld [111, 107] []) rfl rfl
  exact ⟨h.1, h.2.trans rfl⟩

/-- Claim C8: execLocal delegates to exec with the command resolved to
the project root joined with node_modules, .bin and the binary name,
quoted and suffixed with .cmd on Windows, and with the type, filename and
options unchanged; shown with the resolved command evaluated at a
concrete root and binary for both platform families. -/
theorem execLocal_delegates :
    (∀ (binName type : String) (filename : Option String)
        (opts : V2.ExecOptions) (rootDir : String) (isWindows : Bool)
        (w : V2.World),
      V2.execLocal binName type filename opts rootDir isWindows w
        = V2.exec (V2.localBinCommand rootDir isWindows binName)
            type filename opts w) ∧
    V2.localBinCommand "/proj" false "eslint"
      = "/proj/node_modules/.bin/eslint" ∧
    V2.localBinCommand "/proj" true "eslint"
      = "\"/proj/node_modules/.bin/eslint.cmd\"" :=
  ⟨fun _ _ _ _ _ _ _ => rfl, by decide, by decide⟩

end Njshell
